import Mathlib

/-!
Shallow embedding of the role-scoped notification system.

The store is modelled as a list of notification rows in insertion order
(rows are appended on insert and updated in place, mirroring the table).
The three HTTP handlers are modelled as pure functions over that list:

* `listVisible`  — GET  /api/notifications
* `create`       — POST /api/notifications
* `dismiss`      — POST /api/notifications/[id]/dismiss

Missing query parameters and missing JSON string fields are modelled as
the empty string, matching JavaScript falsiness on strings.
-/

/-- A stored notification row, mirroring the `Notification` table schema:
`id` (number), `userId` (optional text), `title`, `role`, `message`,
`dismissed` (JSON array of user ids), `createdAt` (date, modelled as an
integer timestamp). -/
structure NotificationEntry where
  id : Int
  userId : Option String
  title : String
  role : String
  message : String
  dismissed : List String
  createdAt : Int
deriving DecidableEq

/-- The error kinds surfaced by the handlers: `invalidInput` (HTTP 400),
`forbidden` (HTTP 403), `notFound` (HTTP 404). -/
inductive ApiError where
  | invalidInput
  | forbidden
  | notFound
deriving DecidableEq

/-- The notification store: the rows of the `Notification` table in
insertion order. -/
abbrev Store := List NotificationEntry

/-- The storage-level WHERE clause of the GET handler:
`(role == userRole OR role == 'all') AND (userId IS NULL OR userId == ...)`. -/
def roleAudienceMatch (n : NotificationEntry) (userId userRole : String) : Bool :=
  (n.role == userRole || n.role == "all") &&
    (n.userId == none || n.userId == some userId)

/-- The full visibility predicate: the storage-level role/audience filter
combined with the application-level dismissed-exclusion
(`!dismissedUsers.includes(userId)`). -/
def visibleB (n : NotificationEntry) (userId userRole : String) : Bool :=
  roleAudienceMatch n userId userRole && !(n.dismissed.contains userId)

/-- Insert one row into a list that is ordered by `createdAt` descending,
keeping it after every row with a strictly greater `createdAt`. -/
def insertByCreatedAtDesc (n : NotificationEntry) :
    List NotificationEntry → List NotificationEntry
  | [] => [n]
  | m :: ms =>
    if n.createdAt < m.createdAt then m :: insertByCreatedAtDesc n ms
    else n :: m :: ms

/-- Modelled from the spec: the storage engine executing
`ORDER BY createdAt DESC`. The engine itself is outside the repository;
the spec states that ties are returned in insertion order, so the clause
is modelled as a stable descending sort (insertion sort) on the rows. -/
def orderByCreatedAtDesc (rows : List NotificationEntry) : List NotificationEntry :=
  rows.foldr insertByCreatedAtDesc []

/-- GET /api/notifications. Requires both query parameters (400 when
either is missing, i.e. empty), fetches the rows matching the
role/audience WHERE clause ordered by `createdAt` descending, then drops
rows already dismissed by this user, returning the list and its count. -/
def listVisible (store : Store) (userId userRole : String) :
    Except ApiError (List NotificationEntry × Nat) :=
  if userId == "" || userRole == "" then
    .error .invalidInput
  else
    let fetched :=
      orderByCreatedAtDesc (store.filter (fun n => roleAudienceMatch n userId userRole))
    let active := fetched.filter (fun n => !(n.dismissed.contains userId))
    .ok (active, active.length)

/-- The fixed role enumeration accepted at creation time. -/
def validRoles : List String := ["admin", "editor", "user", "all"]

/-- The JSON body of POST /api/notifications:
`{ title, message, role, userId, currentUserRole }`. A missing string
field is the empty string; `userId` may be absent (`none`). -/
structure CreateRequest where
  title : String
  message : String
  role : String
  userId : Option String
  currentUserRole : String
deriving DecidableEq

/-- `MAX(id)` over the store, as the SQL aggregate: `none` on an empty
table, otherwise the greatest id. -/
def maxIdOf : Store → Option Int
  | [] => none
  | n :: rest =>
    match maxIdOf rest with
    | none => some n.id
    | some m => some (max n.id m)

/-- The id chosen for a new row: `(maxIdResult[0]?.maxId || 0) + 1`,
where the JavaScript `|| 0` turns both a missing aggregate and a zero
aggregate into 0. -/
def nextIdOf (store : Store) : Int :=
  (match maxIdOf store with
    | none => 0
    | some m => if m == 0 then 0 else m) + 1

/-- POST /api/notifications. Returns the store after the call together
with the handler result: 403 unless `currentUserRole` is `admin`, 400 on
a missing required field or an invalid role, otherwise appends a row
with the next id, `dismissed = []`, `createdAt = now`, and
`userId || null` (an empty or absent `userId` becomes `null`). -/
def create (store : Store) (req : CreateRequest) (now : Int) :
    Store × Except ApiError NotificationEntry :=
  if req.currentUserRole != "admin" then
    (store, .error .forbidden)
  else if req.title == "" || req.message == "" || req.role == "" then
    (store, .error .invalidInput)
  else if !(validRoles.contains req.role) then
    (store, .error .invalidInput)
  else
    let n : NotificationEntry :=
      { id := nextIdOf store
        userId :=
          match req.userId with
          | none => none
          | some s => if s == "" then none else some s
        title := req.title
        role := req.role
        message := req.message
        dismissed := []
        createdAt := now }
    (store ++ [n], .ok n)

/-- Decimal digit string to number, most significant digit first. -/
def digitsToNat (ds : List Char) : Nat :=
  ds.foldl (fun acc c => acc * 10 + (c.toNat - 48)) 0

/-- Whether `c` is a hexadecimal digit (`0-9`, `a-f`, `A-F`). -/
def isHexDigitJS (c : Char) : Bool :=
  c.isDigit || ('a' ≤ c && c ≤ 'f') || ('A' ≤ c && c ≤ 'F')

/-- Numeric value of a hexadecimal digit. -/
def hexDigitVal (c : Char) : Nat :=
  if c.isDigit then c.toNat - 48
  else if 'a' ≤ c && c ≤ 'f' then c.toNat - 87
  else c.toNat - 55

/-- Hexadecimal digit string to number, most significant digit first. -/
def hexDigitsToNat (ds : List Char) : Nat :=
  ds.foldl (fun acc c => acc * 16 + hexDigitVal c) 0

/-- Model of the JavaScript `parseInt` called with no radix argument:
skip leading whitespace, read an optional sign, auto-detect a `0x` or
`0X` prefix as hexadecimal, then read the longest prefix of digits of
the chosen radix (any trailing characters are ignored); `none` stands
for `NaN`, produced when no digit is read. -/
def parseIntJS (s : String) : Option Int :=
  let cs := s.data.dropWhile Char.isWhitespace
  let signRest : Int × List Char :=
    match cs with
    | '-' :: t => (-1, t)
    | '+' :: t => (1, t)
    | t => (1, t)
  match signRest.2 with
  | '0' :: c :: t =>
    if c == 'x' || c == 'X' then
      let ds := t.takeWhile isHexDigitJS
      if ds.isEmpty then none
      else some (signRest.1 * (hexDigitsToNat ds : Int))
    else
      let ds := ('0' :: c :: t).takeWhile Char.isDigit
      if ds.isEmpty then none
      else some (signRest.1 * (digitsToNat ds : Int))
  | body =>
    let ds := body.takeWhile Char.isDigit
    if ds.isEmpty then none
    else some (signRest.1 * (digitsToNat ds : Int))

/-- The id extracted from the dismiss route path segment:
`params.id ? parseInt(params.id) : null`, so an empty segment is `null`
and a non-numeric segment is `NaN` (both modelled as `none`). -/
def notificationIdOf (idStr : String) : Option Int :=
  if idStr == "" then none else parseIntJS idStr

/-- The successful payload of the dismiss handler: the notification it
returns, and whether it took the already-dismissed no-op branch. -/
structure DismissOk where
  notification : NotificationEntry
  alreadyDismissed : Bool
deriving DecidableEq

/-- POST /api/notifications/[id]/dismiss. Returns the store after the
call together with the handler result: 400 when the id segment does not
parse to a nonzero integer (`!notificationId`), 400 when `userId` is
missing, 404 when no row has that id; when the user already dismissed
the row, a no-op success returning the row unchanged; otherwise every
row with that id has its `dismissed` replaced by the found row's list
with `userId` appended, and the updated row is returned. -/
def dismiss (store : Store) (idStr : String) (userId : String) :
    Store × Except ApiError DismissOk :=
  match notificationIdOf idStr with
  | none => (store, .error .invalidInput)
  | some nid =>
    if nid == 0 then
      (store, .error .invalidInput)
    else if userId == "" then
      (store, .error .invalidInput)
    else
      match store.find? (fun n => n.id == nid) with
      | none => (store, .error .notFound)
      | some n =>
        if n.dismissed.contains userId then
          (store, .ok ⟨n, true⟩)
        else
          let updatedDismissed := n.dismissed ++ [userId]
          (store.map (fun m =>
              if m.id == nid then { m with dismissed := updatedDismissed } else m),
            .ok ⟨{ n with dismissed := updatedDismissed }, false⟩)

/-- One exposed operation of the service. -/
inductive Op where
  | createOp (req : CreateRequest) (now : Int)
  | dismissOp (idStr : String) (userId : String)
  | listOp (userId userRole : String)

/-- The store after one exposed operation; `listVisible` is read-only. -/
def applyOp (store : Store) : Op → Store
  | .createOp req now => (create store req now).1
  | .dismissOp idStr userId => (dismiss store idStr userId).1
  | .listOp _ _ => store

/-- The store after a sequence of exposed operations. -/
def runOps (store : Store) (ops : List Op) : Store :=
  ops.foldl applyOp store

/-- The store invariants maintained by the schema outside the handlers:
`id` is the primary key (pairwise distinct), and each row's `dismissed`
array holds no duplicates. -/
def StoreInv (store : Store) : Prop :=
  (store.map (fun n => n.id)).Nodup ∧ ∀ n ∈ store, n.dismissed.Nodup

theorem orderByCreatedAtDesc_nil : orderByCreatedAtDesc [] = [] := rfl

theorem orderByCreatedAtDesc_cons (m : NotificationEntry) (ms : List NotificationEntry) :
    orderByCreatedAtDesc (m :: ms) = insertByCreatedAtDesc m (orderByCreatedAtDesc ms) := rfl

theorem mem_insertByCreatedAtDesc {a n : NotificationEntry} {l : List NotificationEntry} :
    a ∈ insertByCreatedAtDesc n l ↔ a = n ∨ a ∈ l := by
  induction l with
  | nil => simp [insertByCreatedAtDesc]
  | cons m ms ih =>
    simp only [insertByCreatedAtDesc]
    split
    · simp [ih]
      try tauto
    · simp
      try tauto

theorem mem_orderByCreatedAtDesc {a : NotificationEntry} {l : List NotificationEntry} :
    a ∈ orderByCreatedAtDesc l ↔ a ∈ l := by
  induction l with
  | nil => simp [orderByCreatedAtDesc_nil]
  | cons m ms ih =>
    rw [orderByCreatedAtDesc_cons, mem_insertByCreatedAtDesc, ih]
    simp

theorem pairwise_insertByCreatedAtDesc {n : NotificationEntry} {l : List NotificationEntry}
    (h : l.Pairwise (fun a b => b.createdAt ≤ a.createdAt)) :
    (insertByCreatedAtDesc n l).Pairwise (fun a b => b.createdAt ≤ a.createdAt) := by
  induction l with
  | nil => simp [insertByCreatedAtDesc]
  | cons m ms ih =>
    rw [List.pairwise_cons] at h
    simp only [insertByCreatedAtDesc]
    split
    · rename_i hlt
      rw [List.pairwise_cons]
      refine ⟨fun a ha => ?_, ih h.2⟩
      rw [mem_insertByCreatedAtDesc] at ha
      rcases ha with rfl | ha
      · exact le_of_lt hlt
      · exact h.1 a ha
    · rename_i hnlt
      push_neg at hnlt
      rw [List.pairwise_cons]
      refine ⟨fun a ha => ?_, List.Pairwise.cons h.1 h.2⟩
      rcases List.mem_cons.mp ha with rfl | ha
      · exact hnlt
      · exact le_trans (h.1 a ha) hnlt

theorem pairwise_orderByCreatedAtDesc (l : List NotificationEntry) :
    (orderByCreatedAtDesc l).Pairwise (fun a b => b.createdAt ≤ a.createdAt) := by
  induction l with
  | nil => simp [orderByCreatedAtDesc_nil]
  | cons m ms ih =>
    rw [orderByCreatedAtDesc_cons]
    exact pairwise_insertByCreatedAtDesc ih

theorem filter_insertByCreatedAtDesc_eq {n : NotificationEntry} {l : List NotificationEntry}
    {t : Int} (ht : n.createdAt = t) :
    (insertByCreatedAtDesc n l).filter (fun m => m.createdAt == t)
      = n :: l.filter (fun m => m.createdAt == t) := by
  induction l with
  | nil => simp [insertByCreatedAtDesc, ht]
  | cons m ms ih =>
    simp only [insertByCreatedAtDesc]
    split
    · rename_i hlt
      have hm : (m.createdAt == t) = false := by
        simp only [beq_eq_false_iff_ne, ne_eq]
        omega
      simp [List.filter_cons, hm, ih]
    · simp [List.filter_cons, ht]

theorem filter_insertByCreatedAtDesc_ne {n : NotificationEntry} {l : List NotificationEntry}
    {t : Int} (ht : n.createdAt ≠ t) :
    (insertByCreatedAtDesc n l).filter (fun m => m.createdAt == t)
      = l.filter (fun m => m.createdAt == t) := by
  induction l with
  | nil => simp [insertByCreatedAtDesc, ht]
  | cons m ms ih =>
    simp only [insertByCreatedAtDesc]
    split
    · simp [List.filter_cons, ih]
    · simp [List.filter_cons, ht]

theorem filter_orderByCreatedAtDesc (l : List NotificationEntry) (t : Int) :
    (orderByCreatedAtDesc l).filter (fun m => m.createdAt == t)
      = l.filter (fun m => m.createdAt == t) := by
  induction l with
  | nil => simp [orderByCreatedAtDesc_nil]
  | cons m ms ih =>
    rw [orderByCreatedAtDesc_cons]
    by_cases h : m.createdAt = t
    · rw [filter_insertByCreatedAtDesc_eq h, ih, List.filter_cons_of_pos (by simp [h])]
    · rw [filter_insertByCreatedAtDesc_ne h, ih, List.filter_cons_of_neg (by simp [h])]

theorem listVisible_ok {store : Store} {u r : String} {l : List NotificationEntry} {c : Nat}
    (h : listVisible store u r = .ok (l, c)) :
    l = (orderByCreatedAtDesc (store.filter (fun n => roleAudienceMatch n u r))).filter
          (fun n => !(n.dismissed.contains u)) ∧ c = l.length := by
  unfold listVisible at h
  split at h
  · exact absurd h (by simp)
  · simp only [Except.ok.injEq, Prod.mk.injEq] at h
    obtain ⟨h1, h2⟩ := h
    subst h1
    exact ⟨rfl, h2.symm⟩

theorem listVisible_mem_char {store : Store} {u r : String} {l : List NotificationEntry}
    {c : Nat} (h : listVisible store u r = .ok (l, c)) (N : NotificationEntry) :
    N ∈ l ↔ N ∈ store ∧ (N.role = r ∨ N.role = "all")
      ∧ (N.userId = none ∨ N.userId = some u) ∧ u ∉ N.dismissed := by
  obtain ⟨hl, -⟩ := listVisible_ok h
  subst hl
  simp only [List.mem_filter, mem_orderByCreatedAtDesc, roleAudienceMatch, Bool.and_eq_true,
    Bool.or_eq_true, beq_iff_eq, Bool.not_eq_true', List.contains, List.elem_eq_mem,
    decide_eq_false_iff_not]
  tauto

/-- C1: a notification N of the store is included in the listing for viewer
(u, r) exactly when its role matches the viewer role (or is `all`), it is a
broadcast or targeted at u, and u has not dismissed it. -/
theorem visibility_rule_iff (store : Store) (u r : String) (N : NotificationEntry)
    (l : List NotificationEntry) (c : Nat) (h : listVisible store u r = .ok (l, c)) :
    N ∈ l ↔ N ∈ store ∧ (N.role = r ∨ N.role = "all")
      ∧ (N.userId = none ∨ N.userId = some u) ∧ u ∉ N.dismissed :=
  listVisible_mem_char h N

/-- C7: a successful listing is sorted by `createdAt` descending, and rows
with equal `createdAt` appear in insertion (store) order: filtering the
result to any fixed `createdAt` value gives exactly the store filtered to
the visible rows with that value, in store order. -/
theorem listVisible_sorted_desc_stable (store : Store) (u r : String)
    (l : List NotificationEntry) (c : Nat) (h : listVisible store u r = .ok (l, c)) :
    l.Pairwise (fun a b => b.createdAt ≤ a.createdAt) ∧
      ∀ t : Int, l.filter (fun n => n.createdAt == t)
        = store.filter (fun n => visibleB n u r && n.createdAt == t) := by
  obtain ⟨hl, -⟩ := listVisible_ok h
  subst hl
  constructor
  · exact (pairwise_orderByCreatedAtDesc _).filter _
  · intro t
    rw [List.filter_filter]
    rw [List.filter_congr (fun x _ => Bool.and_comm (x.createdAt == t)
      (!(x.dismissed.contains u)))]
    rw [← List.filter_filter, filter_orderByCreatedAtDesc, List.filter_filter,
      List.filter_filter]
    apply List.filter_congr
    intro x _
    simp only [visibleB]
    cases roleAudienceMatch x u r <;> cases x.dismissed.contains u <;>
      cases x.createdAt == t <;> rfl

theorem create_ok_elim {store : Store} {req : CreateRequest} {now : Int} {s : Store}
    {n : NotificationEntry} (h : create store req now = (s, .ok n)) :
    s = store ++ [n] ∧ n.id = nextIdOf store ∧ n.dismissed = [] ∧
      n.title = req.title ∧ n.message = req.message ∧ n.role = req.role ∧
      n.createdAt = now ∧
      n.userId = (match req.userId with
        | none => none
        | some str => if str == "" then none else some str) := by
  unfold create at h
  split at h
  · simp at h
  split at h
  · simp at h
  split at h
  · simp at h
  · simp only [Prod.mk.injEq, Except.ok.injEq] at h
    obtain ⟨hs, hn⟩ := h
    subst hn
    subst hs
    exact ⟨rfl, rfl, rfl, rfl, rfl, rfl, rfl, rfl⟩

theorem create_fst_cases (store : Store) (req : CreateRequest) (now : Int) :
    (create store req now).1 = store ∨
      ∃ n, create store req now = (store ++ [n], .ok n) := by
  unfold create
  split
  · left; rfl
  split
  · left; rfl
  split
  · left; rfl
  · right; exact ⟨_, rfl⟩

theorem maxIdOf_eq_none {store : Store} : maxIdOf store = none ↔ store = [] := by
  cases store with
  | nil => simp [maxIdOf]
  | cons n rest =>
    simp only [maxIdOf]
    cases maxIdOf rest <;> simp

theorem maxIdOf_le {store : Store} {m : Int} (h : maxIdOf store = some m) :
    ∀ x ∈ store, x.id ≤ m := by
  induction store generalizing m with
  | nil => simp [maxIdOf] at h
  | cons n rest ih =>
    simp only [maxIdOf] at h
    cases hr : maxIdOf rest with
    | none =>
      rw [hr] at h
      injection h with h
      subst h
      have hrest : rest = [] := maxIdOf_eq_none.mp hr
      subst hrest
      intro x hx
      rcases List.mem_cons.mp hx with rfl | hx
      · exact le_refl _
      · simp at hx
    | some m2 =>
      rw [hr] at h
      injection h with h
      subst h
      intro x hx
      rcases List.mem_cons.mp hx with rfl | hx
      · exact le_max_left _ _
      · exact le_trans (ih hr x hx) (le_max_right _ _)

theorem maxIdOf_attained {store : Store} {m : Int} (h : maxIdOf store = some m) :
    ∃ x ∈ store, x.id = m := by
  induction store generalizing m with
  | nil => simp [maxIdOf] at h
  | cons n rest ih =>
    simp only [maxIdOf] at h
    cases hr : maxIdOf rest with
    | none =>
      rw [hr] at h
      injection h with h
      exact ⟨n, by simp, h⟩
    | some m2 =>
      rw [hr] at h
      injection h with h
      subst h
      rcases le_total n.id m2 with hle | hle
      · obtain ⟨x, hx, hxid⟩ := ih hr
        refine ⟨x, by simp [hx], ?_⟩
        omega
      · refine ⟨n, by simp, ?_⟩
        omega

theorem nextIdOf_eq (store : Store) :
    nextIdOf store = match maxIdOf store with | none => 1 | some m => m + 1 := by
  unfold nextIdOf
  cases maxIdOf store with
  | none => rfl
  | some m =>
    by_cases h : m = 0
    · subst h; rfl
    · simp [h]

theorem lt_nextIdOf {store : Store} {x : NotificationEntry} (hx : x ∈ store) :
    x.id < nextIdOf store := by
  rw [nextIdOf_eq]
  cases hm : maxIdOf store with
  | none =>
    rw [maxIdOf_eq_none] at hm
    subst hm
    simp at hx
  | some m =>
    have := maxIdOf_le hm x hx
    show x.id < m + 1
    omega

/-- C4: a create request not made by an admin is rejected with `forbidden`
whatever the other fields are, and the store is unchanged. -/
theorem create_nonadmin_forbidden (store : Store) (req : CreateRequest) (now : Int)
    (h : req.currentUserRole ≠ "admin") :
    create store req now = (store, .error .forbidden) := by
  unfold create
  rw [if_pos (by simp [h])]

/-- C5: a successful create assigns id 1 on an empty store, and otherwise
the greatest id present in the store plus one. -/
theorem create_id_is_max_plus_one (store : Store) (req : CreateRequest) (now : Int)
    (s : Store) (n : NotificationEntry) (h : create store req now = (s, .ok n)) :
    (store = [] → n.id = 1) ∧
      (store ≠ [] → ∃ x ∈ store, (∀ y ∈ store, y.id ≤ x.id) ∧ n.id = x.id + 1) := by
  obtain ⟨-, hid, -⟩ := create_ok_elim h
  constructor
  · intro hs
    subst hs
    rw [hid]
    rfl
  · intro hs
    cases hm : maxIdOf store with
    | none => exact absurd (maxIdOf_eq_none.mp hm) hs
    | some m =>
      obtain ⟨x, hx, hxid⟩ := maxIdOf_attained hm
      refine ⟨x, hx, fun y hy => ?_, ?_⟩
      · rw [hxid]
        exact maxIdOf_le hm y hy
      · rw [hid, nextIdOf_eq, hm, hxid]

/-- C6: for an admin request, creation fails with `invalidInput` exactly
when a required field is empty or the role is outside the enumeration,
and such a failure leaves the store unchanged. -/
theorem create_admin_invalidInput_iff (store : Store) (req : CreateRequest) (now : Int)
    (hadmin : req.currentUserRole = "admin") :
    ((create store req now).2 = .error .invalidInput ↔
        (req.title = "" ∨ req.message = "" ∨ req.role = "" ∨ req.role ∉ validRoles)) ∧
      ((create store req now).2 = .error .invalidInput → (create store req now).1 = store) := by
  have hadm : (req.currentUserRole != "admin") = false := by simp [hadmin]
  by_cases ht : req.title = "" <;> by_cases hms : req.message = "" <;>
    by_cases hr : req.role = "" <;> by_cases hv : req.role ∈ validRoles <;>
      simp [create, hadm, ht, hms, hr, hv, List.contains, List.elem_eq_mem]

/-- C10: an admin create that passes validation with an absent or empty
`userId` persists a broadcast row (`userId = null`) that every
role-matching viewer sees in a subsequent listing. -/
theorem create_empty_userId_broadcast (store : Store) (req : CreateRequest) (now : Int)
    (s : Store) (n : NotificationEntry) (h : create store req now = (s, .ok n))
    (huid : req.userId = none ∨ req.userId = some "") :
    n.userId = none ∧
      ∀ u r lst cnt, (n.role = r ∨ n.role = "all") →
        listVisible s u r = .ok (lst, cnt) → n ∈ lst := by
  obtain ⟨hs, -, hdis, -, -, -, -, huid2⟩ := create_ok_elim h
  have hnone : n.userId = none := by
    rw [huid2]
    rcases huid with h1 | h1 <;> simp [h1]
  refine ⟨hnone, fun u r lst cnt hrole hlist => ?_⟩
  rw [listVisible_mem_char hlist n]
  refine ⟨?_, hrole, Or.inl hnone, ?_⟩
  · rw [hs]
    simp
  · rw [hdis]
    simp

theorem notificationIdOf_eq_parseIntJS (s : String) :
    notificationIdOf s = parseIntJS s := by
  unfold notificationIdOf
  split
  · rename_i h
    rw [beq_iff_eq] at h
    subst h
    decide
  · rfl

theorem dismiss_eval_already {store : Store} {idStr u : String} {nid : Int}
    {n : NotificationEntry} (hid : notificationIdOf idStr = some nid)
    (h0 : (nid == 0) = false) (hu : (u == "") = false)
    (hf : store.find? (fun m => m.id == nid) = some n)
    (hc : n.dismissed.contains u = true) :
    dismiss store idStr u = (store, .ok ⟨n, true⟩) := by
  have hm : u ∈ n.dismissed := by simpa [List.contains] using hc
  unfold dismiss
  rw [hid]
  simp [h0, hu, hf, hm]

theorem dismiss_eval_notFound {store : Store} {idStr u : String} {nid : Int}
    (hid : notificationIdOf idStr = some nid) (h0 : (nid == 0) = false)
    (hu : (u == "") = false) (hf : store.find? (fun m => m.id == nid) = none) :
    dismiss store idStr u = (store, .error .notFound) := by
  unfold dismiss
  rw [hid]
  simp [h0, hu, hf]

theorem dismiss_ok_elim {store : Store} {idStr u : String} {s1 : Store} {r1 : DismissOk}
    (h : dismiss store idStr u = (s1, .ok r1)) :
    ∃ nid n, notificationIdOf idStr = some nid ∧ (nid == 0) = false ∧
      (u == "") = false ∧ store.find? (fun m => m.id == nid) = some n ∧
      ((n.dismissed.contains u = true ∧ s1 = store ∧ r1 = ⟨n, true⟩) ∨
        (n.dismissed.contains u = false ∧
          s1 = store.map (fun m => if m.id == nid then
            { m with dismissed := n.dismissed ++ [u] } else m) ∧
          r1 = ⟨{ n with dismissed := n.dismissed ++ [u] }, false⟩)) := by
  unfold dismiss at h
  split at h
  · simp at h
  · rename_i nid hid
    split at h
    · simp at h
    · rename_i h0
      split at h
      · simp at h
      · rename_i hu
        split at h
        · simp at h
        · rename_i n hf
          split at h
          · rename_i hc
            simp only [Prod.mk.injEq, Except.ok.injEq] at h
            exact ⟨nid, n, hid, by simp [h0], by simp [hu], hf,
              Or.inl ⟨hc, h.1.symm, h.2.symm⟩⟩
          · rename_i hc
            simp only [Prod.mk.injEq, Except.ok.injEq] at h
            refine ⟨nid, n, hid, by simp [h0], by simp [hu], hf, Or.inr ⟨?_, h.1.symm, h.2.symm⟩⟩
            simp only [Bool.not_eq_true] at hc
            exact hc

theorem find?_dismissUpdate {store : Store} {nid : Int} {n : NotificationEntry}
    {d : List String} (hf : store.find? (fun m => m.id == nid) = some n) :
    (store.map (fun m => if m.id == nid then { m with dismissed := d } else m)).find?
        (fun m => m.id == nid) = some { n with dismissed := d } := by
  induction store with
  | nil => simp at hf
  | cons m ms ih =>
    cases hm : (m.id == nid) with
    | true =>
      simp only [List.find?_cons, hm] at hf
      injection hf with hf
      subst hf
      have hm2 : m.id = nid := by simpa using hm
      simp [List.map_cons, List.find?_cons, hm2]
    | false =>
      simp only [List.find?_cons, hm] at hf
      rw [List.map_cons, List.find?_cons]
      have hp : ((if (m.id == nid) = true then { m with dismissed := d } else m).id == nid)
          = false := by
        simp [hm]
      rw [hp]
      exact ih hf

/-- C2: if a dismiss call succeeds, repeating it changes nothing: the
second call is a success on the already-dismissed branch, returns the
same record the first call produced, and leaves the store exactly as the
first call left it. -/
theorem dismiss_idempotent (store : Store) (idStr u : String) (s1 : Store)
    (r1 : DismissOk) (h : dismiss store idStr u = (s1, .ok r1)) :
    dismiss s1 idStr u = (s1, .ok ⟨r1.notification, true⟩) := by
  obtain ⟨nid, n, hid, h0, hu, hf, hcase⟩ := dismiss_ok_elim h
  rcases hcase with ⟨hc, hs, hr⟩ | ⟨hc, hs, hr⟩
  · subst hs
    subst hr
    exact dismiss_eval_already hid h0 hu hf hc
  · subst hs
    subst hr
    have hf2 := find?_dismissUpdate (d := n.dismissed ++ [u]) hf
    have hc2 : (({ n with dismissed := n.dismissed ++ [u] } :
        NotificationEntry).dismissed).contains u = true := by
      simp [List.contains]
    exact dismiss_eval_already hid h0 hu hf2 hc2

/-- C3: dismissing a well-formed id that matches no stored notification
fails with `notFound`, leaves the store unchanged, and therefore leaves
every subsequent listing unchanged. -/
theorem dismiss_missing_id_notFound (store : Store) (idStr u : String) (nid : Int)
    (hid : parseIntJS idStr = some nid) (h0 : nid ≠ 0) (hu : u ≠ "")
    (hf : store.find? (fun m => m.id == nid) = none) :
    dismiss store idStr u = (store, .error .notFound) ∧
      ∀ v r, listVisible (dismiss store idStr u).1 v r = listVisible store v r := by
  have hres : dismiss store idStr u = (store, .error .notFound) :=
    dismiss_eval_notFound (by rw [notificationIdOf_eq_parseIntJS]; exact hid)
      (by simp [h0]) (by simp [hu]) hf
  exact ⟨hres, fun v r => by rw [hres]⟩

theorem dismiss_notFound_elim {store : Store} {idStr u : String}
    (h : (dismiss store idStr u).2 = .error .notFound) :
    ∃ nid, notificationIdOf idStr = some nid ∧ (nid == 0) = false ∧
      (u == "") = false ∧ store.find? (fun m => m.id == nid) = none := by
  unfold dismiss at h
  split at h
  · simp at h
  · rename_i nid hid
    split at h
    · simp at h
    · rename_i h0
      split at h
      · simp at h
      · rename_i hu
        split at h
        · rename_i hf
          exact ⟨nid, hid, by simpa using h0, by simpa using hu, hf⟩
        · split at h <;> simp at h

/-- C9: an id segment that does not parse to a nonzero integer is rejected
with `invalidInput` identically on every store, and `notFound` can only
arise for an id that parses to a nonzero integer matching no stored row. -/
theorem dismiss_unparsable_id_invalidInput (store : Store) (idStr u : String) :
    ((parseIntJS idStr = none ∨ parseIntJS idStr = some 0) →
        dismiss store idStr u = (store, .error .invalidInput)) ∧
      ((dismiss store idStr u).2 = .error .notFound →
        ∃ nid, parseIntJS idStr = some nid ∧ nid ≠ 0 ∧
          store.find? (fun m => m.id == nid) = none) := by
  constructor
  · intro hp
    unfold dismiss
    rw [notificationIdOf_eq_parseIntJS]
    rcases hp with hp | hp <;> rw [hp] <;> simp
  · intro h
    obtain ⟨nid, hid, h0, hu, hf⟩ := dismiss_notFound_elim h
    refine ⟨nid, ?_, by simpa using h0, hf⟩
    rw [← notificationIdOf_eq_parseIntJS]
    exact hid

theorem dismiss_fst_cases (store : Store) (idStr u : String) :
    (dismiss store idStr u).1 = store ∨
      ∃ nid n, store.find? (fun m => m.id == nid) = some n ∧
        n.dismissed.contains u = false ∧
        (dismiss store idStr u).1 =
          store.map (fun m => if m.id == nid then
            { m with dismissed := n.dismissed ++ [u] } else m) := by
  unfold dismiss
  split
  · left; rfl
  · rename_i nid hid
    split
    · left; rfl
    · split
      · left; rfl
      · split
        · left; rfl
        · rename_i n hf
          split
          · left; rfl
          · rename_i hc
            right
            refine ⟨nid, n, hf, ?_, rfl⟩
            simp only [Bool.not_eq_true] at hc
            exact hc

theorem inj_id_of_nodupIds {store : Store}
    (hnd : (store.map (fun n => n.id)).Nodup) {x y : NotificationEntry}
    (hx : x ∈ store) (hy : y ∈ store) (hxy : x.id = y.id) : x = y :=
  List.inj_on_of_nodup_map hnd hx hy hxy

theorem storeInv_create {store : Store} (h : StoreInv store)
    (req : CreateRequest) (now : Int) : StoreInv (create store req now).1 := by
  rcases create_fst_cases store req now with hc | ⟨n, hc⟩
  · rw [hc]; exact h
  · obtain ⟨-, hid, hdis, -⟩ := create_ok_elim hc
    rw [hc]
    constructor
    · rw [List.map_append, List.nodup_append]
      refine ⟨h.1, by simp, ?_⟩
      intro a ha hb
      rw [List.mem_map] at ha
      obtain ⟨x, hx, hxa⟩ := ha
      simp only [List.map_cons, List.map_nil, List.mem_singleton] at hb
      have hlt := lt_nextIdOf hx
      rw [← hid] at hlt
      omega
    · intro m hm
      rcases List.mem_append.mp hm with hm | hm
      · exact h.2 m hm
      · rw [List.mem_singleton] at hm
        subst hm
        rw [hdis]
        exact List.nodup_nil

theorem storeInv_dismiss {store : Store} (h : StoreInv store) (idStr u : String) :
    StoreInv (dismiss store idStr u).1 := by
  rcases dismiss_fst_cases store idStr u with hc | ⟨nid, n, hf, hcon, hc⟩
  · rw [hc]; exact h
  · rw [hc]
    have hnmem := List.mem_of_find?_eq_some hf
    have humem : u ∉ n.dismissed := by simpa [List.contains] using hcon
    constructor
    · have hids : (store.map (fun m => if m.id == nid then
          { m with dismissed := n.dismissed ++ [u] } else m)).map (fun x => x.id)
            = store.map (fun x => x.id) := by
        rw [List.map_map]
        apply List.map_congr_left
        intro m hm
        by_cases hmid : m.id = nid <;> simp [hmid]
      rw [hids]
      exact h.1
    · intro m hm
      rw [List.mem_map] at hm
      obtain ⟨m0, hm0, hm0eq⟩ := hm
      subst hm0eq
      show (if m0.id == nid then
        ({ m0 with dismissed := n.dismissed ++ [u] } : NotificationEntry)
          else m0).dismissed.Nodup
      split
      · show (n.dismissed ++ [u]).Nodup
        rw [List.nodup_append]
        refine ⟨h.2 n hnmem, by simp, ?_⟩
        intro a ha hb
        rw [List.mem_singleton] at hb
        subst hb
        exact humem ha
      · exact h.2 m0 hm0

theorem storeInv_applyOp {store : Store} (h : StoreInv store) (op : Op) :
    StoreInv (applyOp store op) := by
  cases op with
  | createOp req now => exact storeInv_create h req now
  | dismissOp idStr u => exact storeInv_dismiss h idStr u
  | listOp u r => exact h

theorem dismissed_sublist_applyOp {store : Store} (h : StoreInv store) (op : Op)
    {n : NotificationEntry} (hn : n ∈ store) :
    ∃ n2 ∈ applyOp store op, n2.id = n.id ∧ n.dismissed.Sublist n2.dismissed := by
  cases op with
  | listOp u r => exact ⟨n, hn, rfl, List.Sublist.refl _⟩
  | createOp req now =>
    refine ⟨n, ?_, rfl, List.Sublist.refl _⟩
    rcases create_fst_cases store req now with hc | ⟨x, hc⟩
    · simpa [applyOp, hc] using hn
    · simp only [applyOp, hc]
      exact List.mem_append_left _ hn
  | dismissOp idStr u =>
    rcases dismiss_fst_cases store idStr u with hc | ⟨nid, nf, hf, hcon, hc⟩
    · exact ⟨n, by simpa [applyOp, hc] using hn, rfl, List.Sublist.refl _⟩
    · simp only [applyOp]
      rw [hc]
      refine ⟨if n.id == nid then { n with dismissed := nf.dismissed ++ [u] } else n,
        List.mem_map_of_mem _ hn, ?_, ?_⟩
      · split
        · rfl
        · rfl
      · split
        · rename_i hid
          have hid2 : n.id = nid := by simpa using hid
          have hnf : n = nf := by
            have hfid : nf.id = nid := by
              have := List.find?_some hf
              simpa using this
            exact inj_id_of_nodupIds h.1 hn (List.mem_of_find?_eq_some hf)
              (by rw [hid2, hfid])
          show n.dismissed.Sublist (nf.dismissed ++ [u])
          rw [hnf]
          exact List.sublist_append_left _ _
        · exact List.Sublist.refl _

theorem runOps_nil (store : Store) : runOps store [] = store := rfl

theorem runOps_cons (store : Store) (op : Op) (ops : List Op) :
    runOps store (op :: ops) = runOps (applyOp store op) ops := rfl

/-- C8: from any store satisfying the schema invariants (primary-key ids,
duplicate-free dismissed sets), any sequence of exposed operations keeps
every dismissed set duplicate-free, and each notification persists with
its dismissed set only ever extended: the old set is a sublist of the new
one, so its size never decreases. -/
theorem dismissed_nodup_and_monotone (store : Store) (h : StoreInv store)
    (ops : List Op) :
    StoreInv (runOps store ops) ∧
      ∀ n ∈ store, ∃ n2 ∈ runOps store ops, n2.id = n.id ∧
        n.dismissed.Sublist n2.dismissed ∧
        n.dismissed.length ≤ n2.dismissed.length := by
  induction ops generalizing store with
  | nil =>
    exact ⟨h, fun n hn => ⟨n, hn, rfl, List.Sublist.refl _, le_refl _⟩⟩
  | cons op ops ih =>
    obtain ⟨h2, h3⟩ := ih (applyOp store op) (storeInv_applyOp h op)
    rw [runOps_cons]
    refine ⟨h2, fun n hn => ?_⟩
    obtain ⟨n2, hn2, hid2, hsub2⟩ := dismissed_sublist_applyOp h op hn
    obtain ⟨n3, hn3, hid3, hsub3, -⟩ := h3 n2 hn2
    exact ⟨n3, hn3, by rw [hid3, hid2], hsub2.trans hsub3,
      (hsub2.trans hsub3).length_le⟩

/-- A concrete broadcast admin row used to instantiate the theorems. -/
def sampleAdminRow : NotificationEntry :=
  { id := 1, userId := none, title := "System Maintenance Scheduled", role := "admin",
    message := "Server maintenance tomorrow.", dismissed := [], createdAt := 100 }

/-- A concrete valid admin create request. -/
def sampleCreateReq : CreateRequest :=
  { title := "Welcome", message := "Hello", role := "all", userId := none,
    currentUserRole := "admin" }

/-- A concrete create request issued by a non-admin. -/
def sampleUserReq : CreateRequest :=
  { title := "Welcome", message := "Hello", role := "all", userId := none,
    currentUserRole := "user" }

/-- An admin create request with an invalid role value. -/
def sampleBadRoleReq : CreateRequest :=
  { title := "T", message := "M", role := "superuser", userId := none,
    currentUserRole := "admin" }

/-- An admin create request with an empty `userId` field. -/
def sampleEmptyUserIdReq : CreateRequest :=
  { title := "T", message := "M", role := "all", userId := some "",
    currentUserRole := "admin" }

/-- The row produced by `sampleCreateReq` on the empty store at time 0. -/
def sampleCreatedRow : NotificationEntry :=
  { id := 1, userId := none, title := "Welcome", role := "all", message := "Hello",
    dismissed := [], createdAt := 0 }

/-- The row produced by a second `sampleCreateReq` at time 5. -/
def sampleCreatedRow2 : NotificationEntry :=
  { id := 2, userId := none, title := "Welcome", role := "all", message := "Hello",
    dismissed := [], createdAt := 5 }

/-- The row produced by `sampleEmptyUserIdReq` on the empty store. -/
def sampleBroadcastRow : NotificationEntry :=
  { id := 1, userId := none, title := "T", role := "all", message := "M",
    dismissed := [], createdAt := 0 }

/-- Two `role = all` rows sharing one `createdAt`, in insertion order. -/
def sampleTieRowA : NotificationEntry :=
  { id := 1, userId := none, title := "a", role := "all", message := "m",
    dismissed := [], createdAt := 100 }

/-- Second row of the tie pair. -/
def sampleTieRowB : NotificationEntry :=
  { id := 2, userId := none, title := "b", role := "all", message := "m",
    dismissed := [], createdAt := 100 }

/-- Witness for C1: the sample row is listed for viewer (u1, admin). -/
theorem visibility_rule_iff_witness :
    sampleAdminRow ∈ [sampleAdminRow] ↔ sampleAdminRow ∈ [sampleAdminRow] ∧
      (sampleAdminRow.role = "admin" ∨ sampleAdminRow.role = "all") ∧
      (sampleAdminRow.userId = none ∨ sampleAdminRow.userId = some "u1") ∧
      "u1" ∉ sampleAdminRow.dismissed :=
  visibility_rule_iff [sampleAdminRow] "u1" "admin" sampleAdminRow
    [sampleAdminRow] 1 (by rfl)

/-- Witness for C2: a second dismissal of the sample row is a no-op success. -/
theorem dismiss_idempotent_witness :
    dismiss [{ sampleAdminRow with dismissed := ["u1"] }] "1" "u1" =
      ([{ sampleAdminRow with dismissed := ["u1"] }],
        .ok ⟨{ sampleAdminRow with dismissed := ["u1"] }, true⟩) :=
  dismiss_idempotent [sampleAdminRow] "1" "u1"
    [{ sampleAdminRow with dismissed := ["u1"] }]
    ⟨{ sampleAdminRow with dismissed := ["u1"] }, false⟩ (by rfl)

/-- Witness for C3: dismissing id 999 on the empty store is `notFound`. -/
theorem dismiss_missing_id_notFound_witness :
    dismiss [] "999" "u1" = ([], .error .notFound) ∧
      ∀ v r, listVisible (dismiss [] "999" "u1").1 v r = listVisible [] v r :=
  dismiss_missing_id_notFound [] "999" "u1" 999 (by decide) (by decide)
    (by decide) (by rfl)

/-- Witness for C4: a create request with role `user` is forbidden. -/
theorem create_nonadmin_forbidden_witness :
    create [] sampleUserReq 0 = ([], .error .forbidden) :=
  create_nonadmin_forbidden [] sampleUserReq 0 (by decide)

/-- Witness for C5: creating twice from the empty store yields ids 1 and 2. -/
theorem create_id_is_max_plus_one_witness :
    ((([] : Store) = [] → sampleCreatedRow.id = 1) ∧
      (([] : Store) ≠ [] → ∃ x ∈ ([] : Store),
        (∀ y ∈ ([] : Store), y.id ≤ x.id) ∧ sampleCreatedRow.id = x.id + 1)) ∧
    (([sampleCreatedRow] = ([] : Store) → sampleCreatedRow2.id = 1) ∧
      ([sampleCreatedRow] ≠ ([] : Store) → ∃ x ∈ [sampleCreatedRow],
        (∀ y ∈ [sampleCreatedRow], y.id ≤ x.id) ∧
          sampleCreatedRow2.id = x.id + 1)) :=
  ⟨create_id_is_max_plus_one [] sampleCreateReq 0 [sampleCreatedRow]
      sampleCreatedRow (by rfl),
    create_id_is_max_plus_one [sampleCreatedRow] sampleCreateReq 5
      [sampleCreatedRow, sampleCreatedRow2] sampleCreatedRow2 (by rfl)⟩

/-- Witness for C6: an admin request with role `superuser` is invalid input. -/
theorem create_admin_invalidInput_iff_witness :
    ((create [] sampleBadRoleReq 0).2 = .error .invalidInput ↔
        (sampleBadRoleReq.title = "" ∨ sampleBadRoleReq.message = "" ∨
          sampleBadRoleReq.role = "" ∨ sampleBadRoleReq.role ∉ validRoles)) ∧
      ((create [] sampleBadRoleReq 0).2 = .error .invalidInput →
        (create [] sampleBadRoleReq 0).1 = []) :=
  create_admin_invalidInput_iff [] sampleBadRoleReq 0 (by decide)

/-- Witness for C7: a listing with a `createdAt` tie is sorted and stable. -/
theorem listVisible_sorted_desc_stable_witness :
    [sampleTieRowA, sampleTieRowB].Pairwise (fun a b => b.createdAt ≤ a.createdAt) ∧
      ∀ t : Int, [sampleTieRowA, sampleTieRowB].filter (fun n => n.createdAt == t)
        = [sampleTieRowA, sampleTieRowB].filter
            (fun n => visibleB n "u1" "user" && n.createdAt == t) :=
  listVisible_sorted_desc_stable [sampleTieRowA, sampleTieRowB] "u1" "user"
    [sampleTieRowA, sampleTieRowB] 2 (by rfl)

/-- Witness for C8: two dismissals of the sample row keep the invariants. -/
theorem dismissed_nodup_and_monotone_witness :
    StoreInv (runOps [sampleAdminRow]
        [Op.dismissOp "1" "u1", Op.dismissOp "1" "u1"]) ∧
      ∀ n ∈ [sampleAdminRow], ∃ n2 ∈ runOps [sampleAdminRow]
          [Op.dismissOp "1" "u1", Op.dismissOp "1" "u1"], n2.id = n.id ∧
        n.dismissed.Sublist n2.dismissed ∧
        n.dismissed.length ≤ n2.dismissed.length :=
  dismissed_nodup_and_monotone [sampleAdminRow] ⟨by decide, by decide⟩
    [Op.dismissOp "1" "u1", Op.dismissOp "1" "u1"]

/-- Witness for C9: the well-formed id segment `0` is rejected as invalid. -/
theorem dismiss_unparsable_id_invalidInput_witness :
    dismiss [sampleAdminRow] "0" "u1" = ([sampleAdminRow], .error .invalidInput) :=
  (dismiss_unparsable_id_invalidInput [sampleAdminRow] "0" "u1").1
    (Or.inr (by decide))

/-- Witness for C10: an empty `userId` create yields a broadcast row. -/
theorem create_empty_userId_broadcast_witness :
    sampleBroadcastRow.userId = none ∧
      ∀ u r lst cnt, (sampleBroadcastRow.role = r ∨ sampleBroadcastRow.role = "all") →
        listVisible [sampleBroadcastRow] u r = .ok (lst, cnt) →
          sampleBroadcastRow ∈ lst :=
  create_empty_userId_broadcast [] sampleEmptyUserIdReq 0 [sampleBroadcastRow]
    sampleBroadcastRow (by rfl) (Or.inr rfl)
